import Mathlib

/-!
Shallow embedding of the two-channel CV quantizer firmware
(`quantizer.ino`): scale tables, nearest-in-scale quantization,
portamento (glide) filter, bypass button debounce, scale-change LED
blink state machine, and the top-level control loop.

Machine `float` values are modelled as exact rationals (`ℚ`), C `int`
as `ℤ` (the quantities involved stay far from overflow), and
`millis()` timestamps as `ℕ` with truncated subtraction (faithful to
the unsigned 32-bit code as long as time is monotone and does not
wrap).
-/

namespace Quantizer

/-- `MAX_SEMITONES_INT = 60` from the source. -/
def MAX_SEMITONES_INT : ℤ := 60

/-- `BUTTON_DEBOUNCE_MS = 30`. -/
def BUTTON_DEBOUNCE_MS : ℕ := 30

/-- `LED_INTERVAL_MS = 120`. -/
def LED_INTERVAL_MS : ℕ := 120

/-- `NUM_SCALES = 7` (as an integer, for the scale-pot map). -/
def NUM_SCALES : ℤ := 7

/-- Major scale mask `{1,0,1,0,1,1,0,1,0,1,0,1}`. -/
def SCALE_MAJOR_MASK : List Bool :=
  [true, false, true, false, true, true, false, true, false, true, false, true]

/-- Natural minor mask `{1,0,1,1,0,1,0,1,1,0,1,0}`. -/
def SCALE_NAT_MINOR_MASK : List Bool :=
  [true, false, true, true, false, true, false, true, true, false, true, false]

/-- Harmonic minor mask `{1,0,1,1,0,1,0,1,1,0,0,1}`. -/
def SCALE_HARM_MINOR_MASK : List Bool :=
  [true, false, true, true, false, true, false, true, true, false, false, true]

/-- Pentatonic major mask `{1,0,1,0,1,0,0,1,0,1,0,0}`. -/
def SCALE_PENT_MAJOR_MASK : List Bool :=
  [true, false, true, false, true, false, false, true, false, true, false, false]

/-- Pentatonic minor mask `{1,0,0,1,0,1,0,1,0,0,1,0}`. -/
def SCALE_PENT_MINOR_MASK : List Bool :=
  [true, false, false, true, false, true, false, true, false, false, true, false]

/-- Dorian mask `{1,0,1,1,0,1,0,1,0,1,1,0}`. -/
def SCALE_DORIAN_MASK : List Bool :=
  [true, false, true, true, false, true, false, true, false, true, true, false]

/-- Phrygian mask `{1,1,0,1,0,1,0,1,1,0,1,0}`. -/
def SCALE_PHRYGIAN_MASK : List Bool :=
  [true, true, false, true, false, true, false, true, true, false, true, false]

/-- The seven shipped scale masks, in `ScaleIndex` order. -/
def SCALE_MASKS : List (List Bool) :=
  [SCALE_MAJOR_MASK, SCALE_NAT_MINOR_MASK, SCALE_HARM_MINOR_MASK,
   SCALE_PENT_MAJOR_MASK, SCALE_PENT_MINOR_MASK, SCALE_DORIAN_MASK,
   SCALE_PHRYGIAN_MASK]

/-- Clamp an integer into `[lo, hi]`, written exactly as the repeated
`if (x < lo) x = lo; else if (x > hi) x = hi;` idiom of the source. -/
def clampInt (lo hi x : ℤ) : ℤ :=
  if x < lo then lo else if x > hi then hi else x

/-- `(int)(semi + (semi >= 0.0f ? 0.5f : -0.5f))`: the C cast truncates
toward zero, so for a nonnegative argument this is the floor of
`semi + 1/2` and for a negative one the ceiling of `semi - 1/2`
(round half away from zero). -/
def roundHalfAway (q : ℚ) : ℤ :=
  if 0 ≤ q then ⌊q + 1/2⌋ else ⌈q - 1/2⌉

/-- `noteInScale`: reduce the semitone mod 12 with C truncated `%`
(`Int.tmod`), fix up a negative remainder, and index the mask. -/
def noteInScale (semitone : ℤ) (mask : List Bool) : Bool :=
  let deg0 := Int.tmod semitone 12
  let deg := if deg0 < 0 then deg0 + 12 else deg0
  mask.getD deg.toNat false

/-- The search loop of `quantizeToScale`: radius `d` runs upward, the
fuel counts the remaining radii (13 for `d = 0..12`); `none` means the
loop fell through to the fallback. At each radius `note - d` is tested
before `note + d`. -/
def quantSearch (note : ℤ) (mask : List Bool) : ℤ → ℕ → Option ℤ
  | _, 0 => none
  | d, fuel + 1 =>
    if 0 ≤ note - d ∧ noteInScale (note - d) mask = true then
      some (note - d)
    else if note + d ≤ MAX_SEMITONES_INT ∧ noteInScale (note + d) mask = true then
      some (note + d)
    else quantSearch note mask (d + 1) fuel

/-- The rounded-and-clamped candidate note of `quantizeToScale`. -/
def qnote (semi : ℚ) : ℤ :=
  clampInt 0 MAX_SEMITONES_INT (roundHalfAway semi)

/-- `quantizeToScale`: round half away from zero, clamp into `[0, 60]`,
search outward with radius `0..12`; on a miss fall back to the clamped
candidate (the source clamps it again, redundantly). -/
def quantizeToScale (semi : ℚ) (mask : List Bool) : ℤ :=
  let note := qnote semi
  (quantSearch note mask 0 13).getD (clampInt 0 MAX_SEMITONES_INT note)

/-- `1 + (portRaw / 32)` with C truncated integer division. -/
def portSteps (portRaw : ℤ) : ℤ :=
  1 + Int.tdiv portRaw 32

/-- `applyPortamento`: below the snappy threshold return the target;
otherwise move `1/steps` of the remaining distance. -/
def applyPortamento (current target : ℚ) (portRaw : ℤ) : ℚ :=
  if portRaw < 10 then target
  else current + (target - current) / (portSteps portRaw : ℚ)

/-- Boolean checker: the outward search from `note` finds a result that
is in `[0, 60]` and in scale (and in particular does not fall through
to the fallback). -/
def searchOk (note : ℤ) (m : List Bool) : Bool :=
  match quantSearch note m 0 13 with
  | some r => decide (0 ≤ r) && decide (r ≤ 60) && noteInScale r m
  | none => false

lemma clampInt_bounds (lo hi x : ℤ) (h : lo ≤ hi) :
    lo ≤ clampInt lo hi x ∧ clampInt lo hi x ≤ hi := by
  unfold clampInt
  split_ifs <;> omega

lemma qnote_bounds (v : ℚ) : 0 ≤ qnote v ∧ qnote v ≤ 60 := by
  have h := clampInt_bounds 0 MAX_SEMITONES_INT (roundHalfAway v)
    (by norm_num [MAX_SEMITONES_INT])
  simpa [qnote, MAX_SEMITONES_INT] using h

/-- Exhaustive check: for every candidate note in `[0, 60]` and every
shipped scale mask, the outward search succeeds with an in-range,
in-scale result. -/
lemma searchOk_all : ∀ n : ℕ, n < 61 → ∀ m ∈ SCALE_MASKS,
    searchOk (n : ℤ) m = true := by decide

lemma searchOk_spec {note : ℤ} {m : List Bool} (h : searchOk note m = true) :
    ∃ r, quantSearch note m 0 13 = some r ∧
      0 ≤ r ∧ r ≤ 60 ∧ noteInScale r m = true := by
  unfold searchOk at h
  cases hq : quantSearch note m 0 13 with
  | none => rw [hq] at h; cases h
  | some r =>
    rw [hq] at h
    simp only [Bool.and_eq_true, decide_eq_true_eq] at h
    exact ⟨r, rfl, h.1.1, h.1.2, h.2⟩

lemma searchOk_qnote (v : ℚ) (m : List Bool) (hm : m ∈ SCALE_MASKS) :
    searchOk (qnote v) m = true := by
  obtain ⟨h0, h60⟩ := qnote_bounds v
  have hlt : (qnote v).toNat < 61 := by omega
  have := searchOk_all (qnote v).toNat hlt m hm
  rwa [Int.toNat_of_nonneg h0] at this

/-- C1: for every real input value `v` and every one of the seven
shipped scale masks `m`, `quantizeToScale v m` returns an integer in
`[0, 60]` whose semitone class (mod 12, normalized non-negative) is
marked true in `m`. -/
theorem C1_quantize_in_scale_and_range (v : ℚ) (m : List Bool)
    (hm : m ∈ SCALE_MASKS) :
    0 ≤ quantizeToScale v m ∧ quantizeToScale v m ≤ 60 ∧
      noteInScale (quantizeToScale v m) m = true := by
  obtain ⟨r, hq, h0, h60, hs⟩ := searchOk_spec (searchOk_qnote v m hm)
  simp only [quantizeToScale, hq, Option.getD_some]
  exact ⟨h0, h60, hs⟩

/-- Witness for C1 at `v = 3/2`, `m` = Major. -/
theorem C1_witness :
    0 ≤ quantizeToScale (3/2) SCALE_MAJOR_MASK ∧
      quantizeToScale (3/2) SCALE_MAJOR_MASK ≤ 60 ∧
      noteInScale (quantizeToScale (3/2) SCALE_MAJOR_MASK)
        SCALE_MAJOR_MASK = true :=
  C1_quantize_in_scale_and_range (3/2) SCALE_MAJOR_MASK (by decide)

/-- C6: for every real input value and every shipped scale mask, the
outward search of `quantizeToScale` finds an in-scale note at some
radius `d ≤ 12` (the search returns `some`), so the fallback branch is
never executed. -/
theorem C6_fallback_dead (v : ℚ) (m : List Bool) (hm : m ∈ SCALE_MASKS) :
    (quantSearch (qnote v) m 0 13).isSome = true := by
  obtain ⟨r, hq, -, -, -⟩ := searchOk_spec (searchOk_qnote v m hm)
  rw [hq]
  rfl

/-- Witness for C6 at `v = -5`, `m` = Phrygian. -/
theorem C6_witness :
    (quantSearch (qnote (-5)) SCALE_PHRYGIAN_MASK 0 13).isSome = true :=
  C6_fallback_dead (-5) SCALE_PHRYGIAN_MASK (by decide)

/-- The search's down-test at radius `d` succeeds: `note - d` is
nonnegative and in scale. -/
def hitDown (note : ℤ) (m : List Bool) (d : ℤ) : Prop :=
  0 ≤ note - d ∧ noteInScale (note - d) m = true

/-- The search's up-test at radius `d` succeeds: `note + d` is at most
60 and in scale. -/
def hitUp (note : ℤ) (m : List Bool) (d : ℤ) : Prop :=
  note + d ≤ MAX_SEMITONES_INT ∧ noteInScale (note + d) m = true

instance (note : ℤ) (m : List Bool) (d : ℤ) : Decidable (hitDown note m d) := by
  unfold hitDown; infer_instance

instance (note : ℤ) (m : List Bool) (d : ℤ) : Decidable (hitUp note m d) := by
  unfold hitUp; infer_instance

/-- If no radius below `d` hits (in either direction) and the down-test
hits at `d`, the search returns `note - d`: the lower candidate wins a
tie because it is tested first at each radius. -/
lemma quantSearch_hits_down :
    ∀ (fuel : ℕ) (d0 d note : ℤ) (m : List Bool),
      d0 ≤ d → d < d0 + fuel →
      (∀ d', d0 ≤ d' → d' < d → ¬ hitDown note m d' ∧ ¬ hitUp note m d') →
      hitDown note m d →
      quantSearch note m d0 fuel = some (note - d) := by
  intro fuel
  induction fuel with
  | zero =>
    intro d0 d note m h1 h2 _ _
    omega
  | succ fuel ih =>
    intro d0 d note m hle hlt hmiss hdown
    rcases eq_or_lt_of_le hle with heq | hstrict
    · subst heq
      unfold hitDown at hdown
      unfold quantSearch
      rw [if_pos hdown]
    · have hm := hmiss d0 le_rfl hstrict
      unfold hitDown hitUp at hm
      unfold quantSearch
      rw [if_neg hm.1, if_neg hm.2]
      exact ih (d0 + 1) d note m (by omega) (by omega)
        (fun d' h1 h2 => hmiss d' (by omega) h2) hdown

lemma qnote_one : qnote 1 = 1 := by
  unfold qnote roundHalfAway clampInt MAX_SEMITONES_INT
  norm_num

lemma qnote_six : qnote 6 = 6 := by
  unfold qnote roundHalfAway clampInt MAX_SEMITONES_INT
  norm_num

/-- C2: the outward search tests `candidate - d` before `candidate + d`
at each radius `d = 0..12`, so when the nearest in-scale notes below
and above are equidistant the lower one is returned; in particular
Major at semitone 1 yields 0 and Pentatonic Minor at semitone 6
yields 5. -/
theorem C2_tie_break_prefers_lower :
    (∀ (v : ℚ) (m : List Bool) (d : ℤ), 0 ≤ d → d ≤ 12 →
      hitDown (qnote v) m d → hitUp (qnote v) m d →
      (∀ d', 0 ≤ d' → d' < d →
        ¬ hitDown (qnote v) m d' ∧ ¬ hitUp (qnote v) m d') →
      quantizeToScale v m = qnote v - d)
    ∧ quantizeToScale 1 SCALE_MAJOR_MASK = 0
    ∧ quantizeToScale 6 SCALE_PENT_MINOR_MASK = 5 := by
  refine ⟨?_, ?_, ?_⟩
  · intro v m d h0 h12 hdown _ hmiss
    have h := quantSearch_hits_down 13 0 d (qnote v) m h0 (by omega)
      (fun d' h1 h2 => hmiss d' h1 h2) hdown
    simp only [quantizeToScale, h, Option.getD_some]
  · simp only [quantizeToScale, qnote_one]
    decide
  · simp only [quantizeToScale, qnote_six]
    decide

/-- Witness for C2's general tie-break clause: Major mask, input 1,
radius 1 (notes 0 and 2 both in scale, note 1 not). -/
theorem C2_witness :
    quantizeToScale 1 SCALE_MAJOR_MASK = qnote 1 - 1 := by
  apply C2_tie_break_prefers_lower.1 1 SCALE_MAJOR_MASK 1
    (by decide) (by decide)
  · rw [qnote_one]; decide
  · rw [qnote_one]; decide
  · intro d' h1 h2
    have hd : d' = 0 := by omega
    subst hd
    rw [qnote_one]
    exact ⟨by decide, by decide⟩

lemma portSteps_pos {rc : ℤ} (h : 10 ≤ rc) : 1 ≤ portSteps rc := by
  unfold portSteps
  rw [Int.tdiv_eq_ediv (by omega) (by omega)]
  omega

lemma portSteps_le_33 {rc : ℤ} (h1 : 10 ≤ rc) (h2 : rc ≤ 1023) :
    portSteps rc ≤ 33 := by
  unfold portSteps
  rw [Int.tdiv_eq_ediv (by omega) (by omega)]
  omega

/-- C3: below the snappy threshold (10) the glide returns the target
exactly; otherwise, over the full pot range `[0, 1023]`, the step count
`1 + rawControl / 32` lies in `[1, 33]`, is monotone in the raw value,
and the result is `current + (target - current) / steps`. -/
theorem C3_portamento_contract (current target : ℚ) (rc : ℤ) :
    (rc < 10 → applyPortamento current target rc = target) ∧
    (10 ≤ rc → rc ≤ 1023 →
      1 ≤ portSteps rc ∧ portSteps rc ≤ 33 ∧
      applyPortamento current target rc
        = current + (target - current) / (portSteps rc : ℚ)) ∧
    (∀ rc2 : ℤ, 10 ≤ rc → rc ≤ rc2 → rc2 ≤ 1023 →
      portSteps rc ≤ portSteps rc2) := by
  refine ⟨?_, ?_, ?_⟩
  · intro h
    unfold applyPortamento
    rw [if_pos h]
  · intro h1 h2
    refine ⟨portSteps_pos h1, portSteps_le_33 h1 h2, ?_⟩
    unfold applyPortamento
    rw [if_neg (by omega)]
  · intro rc2 h1 hle h2
    unfold portSteps
    rw [Int.tdiv_eq_ediv (by omega) (by omega),
      Int.tdiv_eq_ediv (by omega) (by omega)]
    omega

/-- Witness for C3 at `current = 0`, `target = 2`, `rawControl = 500`. -/
theorem C3_witness :
    1 ≤ portSteps 500 ∧ portSteps 500 ≤ 33 ∧
      applyPortamento 0 2 500 = 0 + (2 - 0) / (portSteps 500 : ℚ) :=
  (C3_portamento_contract 0 2 500).2.1 (by decide) (by decide)

/-- Iterated glide: apply `applyPortamento` toward a fixed target `n`
times from `current`. -/
def glideIter (target : ℚ) (rc : ℤ) (current : ℚ) : ℕ → ℚ
  | 0 => current
  | n + 1 => applyPortamento (glideIter target rc current n) target rc

lemma applyPortamento_sub_target {rc : ℤ} (h : 10 ≤ rc) (c t : ℚ) :
    applyPortamento c t rc - t
      = (c - t) * (1 - 1 / (portSteps rc : ℚ)) := by
  have hk : 1 ≤ portSteps rc := portSteps_pos h
  have hk0 : (portSteps rc : ℚ) ≠ 0 := by
    exact_mod_cast (by omega : portSteps rc ≠ 0)
  unfold applyPortamento
  rw [if_neg (by omega)]
  field_simp
  ring

lemma portRatio_bounds {rc : ℤ} (h : 10 ≤ rc) :
    0 ≤ 1 - 1 / (portSteps rc : ℚ) ∧ 1 - 1 / (portSteps rc : ℚ) < 1 := by
  have hk : 1 ≤ portSteps rc := portSteps_pos h
  have hk1 : (1 : ℚ) ≤ (portSteps rc : ℚ) := by exact_mod_cast hk
  have hkpos : (0 : ℚ) < (portSteps rc : ℚ) := by linarith
  constructor
  · have : 1 / (portSteps rc : ℚ) ≤ 1 := by
      rw [div_le_one hkpos]; exact hk1
    linarith
  · have : 0 < 1 / (portSteps rc : ℚ) := by positivity
    linarith

lemma glideIter_dist (c t : ℚ) {rc : ℤ} (h : 10 ≤ rc) (n : ℕ) :
    glideIter t rc c n - t = (c - t) * (1 - 1 / (portSteps rc : ℚ)) ^ n := by
  induction n with
  | zero => simp [glideIter]
  | succ n ih =>
    show applyPortamento (glideIter t rc c n) t rc - t = _
    rw [applyPortamento_sub_target h, ih, pow_succ]
    ring

/-- C8: for a fixed target and any `rawControl` at or above the snappy
threshold, one glide step strictly reduces the distance to the target
(whenever it is nonzero), never lands on the far side of the target,
and the iterated glide drives the distance below any positive ε. -/
theorem C8_glide_monotone_convergence (c t : ℚ) (rc : ℤ) (h : 10 ≤ rc) :
    (c ≠ t → |applyPortamento c t rc - t| < |c - t|) ∧
    0 ≤ (applyPortamento c t rc - t) * (c - t) ∧
    (∀ ε : ℚ, 0 < ε → ∃ n, |glideIter t rc c n - t| < ε) := by
  obtain ⟨hr0, hr1⟩ := portRatio_bounds h
  refine ⟨?_, ?_, ?_⟩
  · intro hne
    rw [applyPortamento_sub_target h, abs_mul]
    have hct : 0 < |c - t| := abs_pos.mpr (sub_ne_zero.mpr hne)
    calc |c - t| * |1 - 1 / (portSteps rc : ℚ)|
        = |c - t| * (1 - 1 / (portSteps rc : ℚ)) := by rw [abs_of_nonneg hr0]
      _ < |c - t| * 1 := by exact mul_lt_mul_of_pos_left hr1 hct
      _ = |c - t| := mul_one _
  · rw [applyPortamento_sub_target h]
    have := sq_nonneg (c - t)
    nlinarith
  · intro ε hε
    rcases eq_or_ne c t with hct | hct
    · exact ⟨0, by simp [glideIter, hct, hε]⟩
    · have hpos : 0 < |c - t| := abs_pos.mpr (sub_ne_zero.mpr hct)
      obtain ⟨n, hn⟩ := exists_pow_lt_of_lt_one
        (show (0 : ℚ) < ε / |c - t| by positivity) hr1
      refine ⟨n, ?_⟩
      rw [glideIter_dist c t h n, abs_mul, abs_pow,
        abs_of_nonneg hr0]
      calc |c - t| * (1 - 1 / (portSteps rc : ℚ)) ^ n
          < |c - t| * (ε / |c - t|) := by
            exact mul_lt_mul_of_pos_left hn hpos
        _ = ε := by field_simp

/-- Witness for C8 at `c = 0`, `t = 8`, `rawControl = 320`. -/
theorem C8_witness :
    ((0 : ℚ) ≠ 8 → |applyPortamento 0 8 320 - 8| < |(0 : ℚ) - 8|) ∧
    0 ≤ (applyPortamento 0 8 320 - 8) * ((0 : ℚ) - 8) ∧
    (∀ ε : ℚ, 0 < ε → ∃ n, |glideIter 8 320 0 n - 8| < ε) :=
  C8_glide_monotone_convergence 0 8 320 (by decide)

/-- C10: for `rawControl` in `[10, 31]` the integer division gives
`steps = 1`, so the glide still jumps exactly to the target: the
zero-lag region extends through raw value 31, not only below the
threshold of 10. -/
theorem C10_exact_jump_up_to_31 (current target : ℚ) (rc : ℤ)
    (h1 : 10 ≤ rc) (h2 : rc ≤ 31) :
    portSteps rc = 1 ∧ applyPortamento current target rc = target := by
  have hs : portSteps rc = 1 := by
    unfold portSteps
    rw [Int.tdiv_eq_ediv (by omega) (by omega)]
    omega
  refine ⟨hs, ?_⟩
  unfold applyPortamento
  rw [if_neg (by omega), hs]
  norm_num

/-- Witness for C10 at `current = 5`, `target = 7`, `rawControl = 20`. -/
theorem C10_witness :
    portSteps 20 = 1 ∧ applyPortamento 5 7 20 = 7 :=
  C10_exact_jump_up_to_31 5 7 20 (by decide) (by decide)

/-! ## Stateful part: channel state, bypass button, LED blink, loop -/

/-- `adcToSemitone`: clamp the ADC reading into `[0, 1023]` and scale
linearly onto `[0, 60]` semitones. -/
def adcToSemitone (adc : ℤ) : ℚ :=
  let a := if adc < 0 then 0 else if adc > 1023 then 1023 else adc
  (a * 60 : ℚ) / 1023

/-- Arduino's `map`: `(x - inMin) * (outMax - outMin) / (inMax - inMin)
+ outMin` with C truncated integer division. -/
def arduinoMap (x inMin inMax outMin outMax : ℤ) : ℤ :=
  Int.tdiv ((x - inMin) * (outMax - outMin)) (inMax - inMin) + outMin

/-- `ChannelState`: current output semitone (after portamento) and
target semitone (quantized + transpose). -/
structure ChannelState where
  currentSemi : ℚ
  targetSemi : ℚ
deriving Repr

/-- All session-global state of the firmware that the loop mutates. -/
structure State where
  ch1 : ChannelState
  ch2 : ChannelState
  currentScaleIndex : ℤ
  bypass : Bool
  lastButtonReading : Bool      -- `true` = HIGH (released, pull-up)
  lastButtonMillis : ℕ
  ledOnPhase : Bool
  ledInSequence : Bool
  ledBlinkCount : ℕ             -- uint8: how many ON phases remain
  ledLastMillis : ℕ
  ledPinHigh : Bool             -- level written to the LED pin
deriving Repr

/-- `updateButton`: debounced falling-edge detector. The raw reading is
recorded every tick; on an accepted HIGH→LOW edge outside the debounce
window bypass toggles, and when it toggles to off both channels'
current values are resynced to their targets. -/
def updateButton (s : State) (reading : Bool) (now : ℕ) : State :=
  let s1 :=
    if BUTTON_DEBOUNCE_MS < now - s.lastButtonMillis then
      if s.lastButtonReading = true ∧ reading = false then
        let b := !s.bypass
        let s' := { s with bypass := b, lastButtonMillis := now }
        if b = false then
          { s' with ch1 := { s'.ch1 with currentSemi := s'.ch1.targetSemi },
                     ch2 := { s'.ch2 with currentSemi := s'.ch2.targetSemi } }
        else s'
      else s
    else s
  { s1 with lastButtonReading := reading }

/-- `startScaleBlink`: arm the blink sequence with `scaleIndex + 1`
blinks (cast through uint8), phase off, lamp off, timestamp `now`. -/
def startScaleBlink (s : State) (scaleIndex : ℤ) (now : ℕ) : State :=
  let count := (scaleIndex + 1).toNat % 256
  if count = 0 then
    { s with ledInSequence := false, ledPinHigh := false }
  else
    { s with ledBlinkCount := count, ledInSequence := true,
             ledOnPhase := false, ledLastMillis := now,
             ledPinHigh := false }

/-- `updateLedBlink`: one step of the blink state machine at time
`now`. -/
def updateLedBlink (s : State) (now : ℕ) : State :=
  if s.ledInSequence = false then s
  else if now - s.ledLastMillis < LED_INTERVAL_MS then s
  else if s.ledOnPhase = false then
    { s with ledLastMillis := now, ledPinHigh := true, ledOnPhase := true }
  else
    let count := if 0 < s.ledBlinkCount then s.ledBlinkCount - 1
                 else s.ledBlinkCount
    { s with ledLastMillis := now, ledPinHigh := false,
             ledOnPhase := false, ledBlinkCount := count,
             ledInSequence := decide (count ≠ 0) }

/-- One tick's worth of raw inputs (pots, button level, CV inputs, the
`millis()` clock). -/
structure Input where
  scalePot : ℤ
  portamentoRaw : ℤ
  transposeRaw : ℤ
  buttonReading : Bool
  cv1Adc : ℤ
  cv2Adc : ℤ
  now : ℕ
deriving Repr

/-- The scale-pot part of `loop()`: map the pot onto `[0, 6]`, clamp,
and on a change store the new index and arm the blink sequence. -/
def scaleStep (s : State) (inp : Input) : State :=
  let newScaleIndex0 := arduinoMap inp.scalePot 0 1023 0 (NUM_SCALES - 1)
  let newScaleIndex :=
    if newScaleIndex0 < 0 then 0
    else if NUM_SCALES ≤ newScaleIndex0 then NUM_SCALES - 1
    else newScaleIndex0
  if newScaleIndex ≠ s.currentScaleIndex then
    startScaleBlink { s with currentScaleIndex := newScaleIndex }
      newScaleIndex inp.now
  else s

/-- The per-channel part of `loop()`: on bypass the channel state is
untouched (raw pass-through goes straight to PWM); otherwise quantize
each CV input against the active mask, add the mapped transpose, clamp
into `[0, 60]`, store as target, and glide current toward it. -/
def channelStep (s : State) (inp : Input) : State :=
  if s.bypass = true then s
  else
    let scaleMask := SCALE_MASKS.getD s.currentScaleIndex.toNat []
    let transpose := arduinoMap inp.transposeRaw 0 1023 (-12) 12
    let q1t := clampInt 0 MAX_SEMITONES_INT
      (quantizeToScale (adcToSemitone inp.cv1Adc) scaleMask + transpose)
    let q2t := clampInt 0 MAX_SEMITONES_INT
      (quantizeToScale (adcToSemitone inp.cv2Adc) scaleMask + transpose)
    { s with
      ch1 := ⟨applyPortamento s.ch1.currentSemi (q1t : ℚ) inp.portamentoRaw,
              (q1t : ℚ)⟩,
      ch2 := ⟨applyPortamento s.ch2.currentSemi (q2t : ℚ) inp.portamentoRaw,
              (q2t : ℚ)⟩ }

/-- One iteration of `loop()`: scale-pot mapping and blink arming, then
the debounced button, then the bypass/quantize branch, and finally the
LED blink state machine. -/
def loopTick (s : State) (inp : Input) : State :=
  updateLedBlink
    (channelStep (updateButton (scaleStep s inp) inp.buttonReading inp.now) inp)
    inp.now

/-- The state right after `setup()`: channels zeroed, no bypass,
released button, and `startScaleBlink 0` armed at time 0. -/
def initState : State :=
  startScaleBlink
    { ch1 := ⟨0, 0⟩, ch2 := ⟨0, 0⟩, currentScaleIndex := 0,
      bypass := false, lastButtonReading := true, lastButtonMillis := 0,
      ledOnPhase := false, ledInSequence := false, ledBlinkCount := 0,
      ledLastMillis := 0, ledPinHigh := false } 0 0

/-- Run the loop over a list of per-tick inputs. -/
def runLoop (s : State) (inps : List Input) : State :=
  inps.foldl loopTick s

/-- Run only the button machine over a list of (reading, now) pairs. -/
def runButton (s : State) : List (Bool × ℕ) → State
  | [] => s
  | (r, t) :: rest => runButton (updateButton s r t) rest

/-- Run only the LED blink machine over a list of tick times. -/
def runLed (s : State) : List ℕ → State
  | [] => s
  | t :: ts => runLed (updateLedBlink s t) ts

/-- Number of completed blink pairs (ON phase ended) along a run of the
LED machine. -/
def pairsDone (s : State) : List ℕ → ℕ
  | [] => 0
  | t :: ts =>
    let s' := updateLedBlink s t
    (if s.ledInSequence ∧ s.ledOnPhase ∧ s'.ledOnPhase = false then 1 else 0)
      + pairsDone s' ts

/-! ### Field-preservation helper lemmas -/

lemma startScaleBlink_preserves (s : State) (k : ℤ) (now : ℕ) :
    (startScaleBlink s k now).ch1 = s.ch1 ∧
    (startScaleBlink s k now).ch2 = s.ch2 ∧
    (startScaleBlink s k now).bypass = s.bypass ∧
    (startScaleBlink s k now).lastButtonReading = s.lastButtonReading ∧
    (startScaleBlink s k now).lastButtonMillis = s.lastButtonMillis := by
  simp only [startScaleBlink]
  split_ifs <;> exact ⟨rfl, rfl, rfl, rfl, rfl⟩

lemma scaleStep_preserves (s : State) (inp : Input) :
    (scaleStep s inp).ch1 = s.ch1 ∧
    (scaleStep s inp).ch2 = s.ch2 ∧
    (scaleStep s inp).bypass = s.bypass ∧
    (scaleStep s inp).lastButtonReading = s.lastButtonReading ∧
    (scaleStep s inp).lastButtonMillis = s.lastButtonMillis := by
  simp only [scaleStep]
  split_ifs <;>
    first
      | exact startScaleBlink_preserves _ _ _
      | exact ⟨rfl, rfl, rfl, rfl, rfl⟩

lemma updateLedBlink_preserves (s : State) (now : ℕ) :
    (updateLedBlink s now).ch1 = s.ch1 ∧
    (updateLedBlink s now).ch2 = s.ch2 ∧
    (updateLedBlink s now).bypass = s.bypass := by
  simp only [updateLedBlink]
  split_ifs <;> exact ⟨rfl, rfl, rfl⟩

/-- When the accepting-edge condition fails, `updateButton` only
records the raw reading. -/
lemma updateButton_no_edge (s : State) (r : Bool) (now : ℕ)
    (h : ¬(s.lastButtonReading = true ∧ r = false ∧
      BUTTON_DEBOUNCE_MS < now - s.lastButtonMillis)) :
    updateButton s r now = { s with lastButtonReading := r } := by
  unfold updateButton
  by_cases h1 : BUTTON_DEBOUNCE_MS < now - s.lastButtonMillis
  · rw [if_pos h1, if_neg (fun hc => h ⟨hc.1, hc.2, h1⟩)]
  · rw [if_neg h1]

lemma channelStep_bypass (s : State) (inp : Input) (h : s.bypass = true) :
    channelStep s inp = s := by
  unfold channelStep
  rw [if_pos h]

/-- C4: when the bypass controller accepts a debounced falling edge
that switches bypass from ON to OFF, it sets `currentSemi` equal to
`targetSemi` for both channels on that same tick (targets untouched);
and on any loop tick during which bypass stays active the channels'
state is left completely unchanged. -/
theorem C4_bypass_resync_and_freeze :
    (∀ (s : State) (now : ℕ), s.bypass = true →
      s.lastButtonReading = true →
      BUTTON_DEBOUNCE_MS < now - s.lastButtonMillis →
      (updateButton s false now).bypass = false ∧
      (updateButton s false now).ch1.currentSemi = s.ch1.targetSemi ∧
      (updateButton s false now).ch2.currentSemi = s.ch2.targetSemi ∧
      (updateButton s false now).ch1.targetSemi = s.ch1.targetSemi ∧
      (updateButton s false now).ch2.targetSemi = s.ch2.targetSemi)
    ∧ (∀ (s : State) (inp : Input), s.bypass = true →
        ¬(s.lastButtonReading = true ∧ inp.buttonReading = false ∧
          BUTTON_DEBOUNCE_MS < inp.now - s.lastButtonMillis) →
        (loopTick s inp).ch1 = s.ch1 ∧ (loopTick s inp).ch2 = s.ch2) := by
  constructor
  · intro s now hb hr hd
    unfold updateButton
    rw [if_pos hd, if_pos ⟨hr, rfl⟩, hb]
    exact ⟨rfl, rfl, rfl, rfl, rfl⟩
  · intro s inp hb hnoedge
    obtain ⟨hc1, hc2, hby, hlr, hlm⟩ := scaleStep_preserves s inp
    have hub : updateButton (scaleStep s inp) inp.buttonReading inp.now
        = { scaleStep s inp with lastButtonReading := inp.buttonReading } := by
      apply updateButton_no_edge
      rw [hlr, hlm]
      exact hnoedge
    unfold loopTick
    rw [hub, channelStep_bypass _ _ (by rw [← hb, ← hby])]
    obtain ⟨hl1, hl2, -⟩ := updateLedBlink_preserves
      { scaleStep s inp with lastButtonReading := inp.buttonReading } inp.now
    rw [hl1, hl2]
    exact ⟨hc1, hc2⟩

/-- Witness for C4: a concrete bypassed state with stale channels and a
valid falling edge at `now = 100`. -/
theorem C4_witness :
    (updateButton
      { ch1 := ⟨10, 20⟩, ch2 := ⟨3, 4⟩, currentScaleIndex := 0,
        bypass := true, lastButtonReading := true, lastButtonMillis := 0,
        ledOnPhase := false, ledInSequence := false, ledBlinkCount := 0,
        ledLastMillis := 0, ledPinHigh := false } false 100).bypass = false ∧
    (updateButton
      { ch1 := ⟨10, 20⟩, ch2 := ⟨3, 4⟩, currentScaleIndex := 0,
        bypass := true, lastButtonReading := true, lastButtonMillis := 0,
        ledOnPhase := false, ledInSequence := false, ledBlinkCount := 0,
        ledLastMillis := 0, ledPinHigh := false } false 100).ch1.currentSemi
      = (20 : ℚ) ∧
    (updateButton
      { ch1 := ⟨10, 20⟩, ch2 := ⟨3, 4⟩, currentScaleIndex := 0,
        bypass := true, lastButtonReading := true, lastButtonMillis := 0,
        ledOnPhase := false, ledInSequence := false, ledBlinkCount := 0,
        ledLastMillis := 0, ledPinHigh := false } false 100).ch2.currentSemi
      = (4 : ℚ) ∧
    (updateButton
      { ch1 := ⟨10, 20⟩, ch2 := ⟨3, 4⟩, currentScaleIndex := 0,
        bypass := true, lastButtonReading := true, lastButtonMillis := 0,
        ledOnPhase := false, ledInSequence := false, ledBlinkCount := 0,
        ledLastMillis := 0, ledPinHigh := false } false 100).ch1.targetSemi
      = (20 : ℚ) ∧
    (updateButton
      { ch1 := ⟨10, 20⟩, ch2 := ⟨3, 4⟩, currentScaleIndex := 0,
        bypass := true, lastButtonReading := true, lastButtonMillis := 0,
        ledOnPhase := false, ledInSequence := false, ledBlinkCount := 0,
        ledLastMillis := 0, ledPinHigh := false } false 100).ch2.targetSemi
      = (4 : ℚ) :=
  C4_bypass_resync_and_freeze.1
    { ch1 := ⟨10, 20⟩, ch2 := ⟨3, 4⟩, currentScaleIndex := 0,
      bypass := true, lastButtonReading := true, lastButtonMillis := 0,
      ledOnPhase := false, ledInSequence := false, ledBlinkCount := 0,
      ledLastMillis := 0, ledPinHigh := false } 100 rfl rfl (by decide)

/-- Once the recorded raw level is LOW, further all-LOW ticks never
toggle bypass: there is no falling edge left to see. -/
lemma updateButton_low_stuck (s : State) (now : ℕ)
    (h : s.lastButtonReading = false) :
    updateButton s false now = { s with lastButtonReading := false } := by
  unfold updateButton
  by_cases h1 : BUTTON_DEBOUNCE_MS < now - s.lastButtonMillis
  · rw [if_pos h1, if_neg (by rw [h]; rintro ⟨hc, -⟩; cases hc)]
  · rw [if_neg h1]

/-- C9 counterexample: from the power-on state, a falling edge at
`t = 10` lands inside the debounce window (`10 - 0 ≤ 30`) and is
swallowed; the level then stays LOW through `t = 50, 100, 1000` (the
debounce interval long since elapsed), yet bypass never toggles — the
edge is lost, not delayed. -/
theorem C9_counterexample :
    initState.bypass = false ∧
    initState.lastButtonReading = true ∧
    ¬ (BUTTON_DEBOUNCE_MS < 10 - initState.lastButtonMillis) ∧
    (runButton initState [(false, 10)]).bypass = false ∧
    (runButton initState [(false, 10), (false, 50)]).bypass = false ∧
    (runButton initState
      [(false, 10), (false, 50), (false, 100)]).bypass = false ∧
    (runButton initState
      [(false, 10), (false, 50), (false, 100), (false, 1000)]).bypass
      = false := by
  refine ⟨rfl, rfl, by decide, rfl, rfl, rfl, rfl⟩

/-- C9 amended: a falling edge that arrives while the debounce window
is still open is lost, not delayed — the raw level is recorded every
tick, so once the recorded level is LOW, no later all-LOW trace ever
toggles bypass (it can only toggle again after the button reads HIGH
and a fresh falling edge arrives outside the window). -/
theorem C9_swallowed_edge_lost (s : State) (ts : List (Bool × ℕ))
    (hlow : s.lastButtonReading = false)
    (hts : ∀ p ∈ ts, p.1 = false) :
    (runButton s ts).bypass = s.bypass ∧
    (runButton s ts).lastButtonReading = false := by
  induction ts generalizing s with
  | nil => exact ⟨rfl, hlow⟩
  | cons p rest ih =>
    obtain ⟨r, t⟩ := p
    have hr : r = false := hts (r, t) (List.mem_cons_self _ _)
    subst hr
    simp only [runButton]
    rw [updateButton_low_stuck s t hlow]
    exact ih { s with lastButtonReading := false } rfl
      (fun q hq => hts q (List.mem_cons_of_mem _ hq))

/-- Witness for C9's amended statement: concrete stuck state, three
all-LOW ticks. -/
theorem C9_amended_witness :
    (runButton { initState with lastButtonReading := false }
      [(false, 50), (false, 100), (false, 1000)]).bypass
      = ({ initState with lastButtonReading := false } : State).bypass ∧
    (runButton { initState with lastButtonReading := false }
      [(false, 50), (false, 100), (false, 1000)]).lastButtonReading
      = false :=
  C9_swallowed_edge_lost { initState with lastButtonReading := false }
    [(false, 50), (false, 100), (false, 1000)] rfl (by decide)

/-! ### LED blink sequence -/

lemma updateLedBlink_idle (s : State) (now : ℕ)
    (h : s.ledInSequence = false) : updateLedBlink s now = s := by
  unfold updateLedBlink
  rw [if_pos h]

lemma runLed_idle (ts : List ℕ) (s : State) (h : s.ledInSequence = false) :
    runLed s ts = s := by
  induction ts with
  | nil => rfl
  | cons t ts ih => simp only [runLed, updateLedBlink_idle s t h]; exact ih

lemma pairsDone_idle (ts : List ℕ) (s : State) (h : s.ledInSequence = false) :
    pairsDone s ts = 0 := by
  induction ts with
  | nil => rfl
  | cons t ts ih =>
    simp only [pairsDone, updateLedBlink_idle s t h, h]
    simpa using ih

lemma updateLedBlink_wait (s : State) (now : ℕ)
    (hseq : s.ledInSequence = true)
    (h : now - s.ledLastMillis < LED_INTERVAL_MS) :
    updateLedBlink s now = s := by
  unfold updateLedBlink
  rw [if_neg (by rw [hseq]; exact Bool.true_eq_false ▸ fun hc => by cases hc),
    if_pos h]

lemma updateLedBlink_turn_on (s : State) (now : ℕ)
    (hseq : s.ledInSequence = true)
    (h : ¬ (now - s.ledLastMillis < LED_INTERVAL_MS))
    (hph : s.ledOnPhase = false) :
    updateLedBlink s now
      = { s with ledLastMillis := now, ledPinHigh := true,
                 ledOnPhase := true } := by
  unfold updateLedBlink
  rw [if_neg (by rw [hseq]; exact fun hc => by cases hc), if_neg h,
    if_pos hph]

lemma updateLedBlink_turn_off (s : State) (now : ℕ)
    (hseq : s.ledInSequence = true)
    (h : ¬ (now - s.ledLastMillis < LED_INTERVAL_MS))
    (hph : s.ledOnPhase = true) (hcnt : 1 ≤ s.ledBlinkCount) :
    updateLedBlink s now
      = { s with ledLastMillis := now, ledPinHigh := false,
                 ledOnPhase := false,
                 ledBlinkCount := s.ledBlinkCount - 1,
                 ledInSequence := decide (s.ledBlinkCount - 1 ≠ 0) } := by
  unfold updateLedBlink
  rw [if_neg (by rw [hseq]; exact fun hc => by cases hc), if_neg h,
    if_neg (by rw [hph]; exact fun hc => by cases hc),
    if_pos (by omega : 0 < s.ledBlinkCount)]

/-- Invariant run lemma for an armed blink sequence: the number of
completed on/off pairs never exceeds the armed count; if the machine
has gone idle the count was consumed exactly and the lamp is off; if it
is still running, pairs done plus pairs remaining equals the armed
count and the lamp mirrors the phase. -/
lemma runLed_pairs : ∀ (ts : List ℕ) (s : State),
    s.ledInSequence = true → s.ledPinHigh = s.ledOnPhase →
    1 ≤ s.ledBlinkCount →
    pairsDone s ts ≤ s.ledBlinkCount ∧
    ((runLed s ts).ledInSequence = false →
      pairsDone s ts = s.ledBlinkCount ∧
      (runLed s ts).ledPinHigh = false ∧
      (runLed s ts).ledOnPhase = false) ∧
    ((runLed s ts).ledInSequence = true →
      pairsDone s ts + (runLed s ts).ledBlinkCount = s.ledBlinkCount ∧
      (runLed s ts).ledPinHigh = (runLed s ts).ledOnPhase ∧
      1 ≤ (runLed s ts).ledBlinkCount) := by
  intro ts
  induction ts with
  | nil =>
    intro s hseq hpin hcnt
    refine ⟨Nat.zero_le _, ?_, ?_⟩
    · intro hid
      rw [show runLed s [] = s from rfl] at hid
      rw [hid] at hseq
      cases hseq
    · intro _
      exact ⟨Nat.zero_add _, hpin, hcnt⟩
  | cons t ts ih =>
    intro s hseq hpin hcnt
    by_cases hel : t - s.ledLastMillis < LED_INTERVAL_MS
    · -- interval not elapsed: state unchanged, no pair completed
      have hstep := updateLedBlink_wait s t hseq hel
      rcases hph : s.ledOnPhase with _ | _
      · simpa [pairsDone, runLed, hstep, hph] using ih s hseq hpin hcnt
      · simpa [pairsDone, runLed, hstep, hph] using ih s hseq hpin hcnt
    · rcases hph : s.ledOnPhase with _ | _
      · -- OFF phase ends: lamp turns on, no pair completed yet
        have hstep := updateLedBlink_turn_on s t hseq hel hph
        have hseq1 : (updateLedBlink s t).ledInSequence = true := by
          rw [hstep]; exact hseq
        have hon1 : (updateLedBlink s t).ledOnPhase = true := by rw [hstep]
        have hpin1 : (updateLedBlink s t).ledPinHigh = true := by rw [hstep]
        have hcnt1 : (updateLedBlink s t).ledBlinkCount = s.ledBlinkCount := by
          rw [hstep]
        have hind : (if s.ledInSequence = true ∧ s.ledOnPhase = true ∧
            (updateLedBlink s t).ledOnPhase = false then 1 else 0) = 0 := by
          simp [hph]
        obtain ⟨b1, b2, b3⟩ := ih (updateLedBlink s t) hseq1
          (by rw [hpin1, hon1]) (by rw [hcnt1]; exact hcnt)
        simp only [pairsDone, runLed, hind, Nat.zero_add]
        refine ⟨?_, fun hid => ?_, fun hrun => ?_⟩
        · rw [hcnt1] at b1; exact b1
        · obtain ⟨e1, e2, e3⟩ := b2 hid
          rw [hcnt1] at e1
          exact ⟨e1, e2, e3⟩
        · obtain ⟨e1, e2, e3⟩ := b3 hrun
          rw [hcnt1] at e1
          exact ⟨e1, e2, e3⟩
      · -- ON phase ends: one pair completed, count decremented
        have hstep := updateLedBlink_turn_off s t hseq hel hph hcnt
        have hoff1 : (updateLedBlink s t).ledOnPhase = false := by rw [hstep]
        have hpin1 : (updateLedBlink s t).ledPinHigh = false := by rw [hstep]
        have hcnt1 : (updateLedBlink s t).ledBlinkCount
            = s.ledBlinkCount - 1 := by rw [hstep]
        have hind : (if s.ledInSequence = true ∧ s.ledOnPhase = true ∧
            (updateLedBlink s t).ledOnPhase = false then 1 else 0) = 1 := by
          simp [hseq, hph, hoff1]
        simp only [pairsDone, runLed, hind]
        by_cases hone : s.ledBlinkCount = 1
        · -- last pair: machine goes idle with the lamp off
          have hid : (updateLedBlink s t).ledInSequence = false := by
            rw [hstep]; simp [hone]
          rw [runLed_idle ts _ hid, pairsDone_idle ts _ hid]
          refine ⟨by omega, fun _ => ⟨by omega, hpin1, hoff1⟩,
            fun hcontra => ?_⟩
          rw [hid] at hcontra
          cases hcontra
        · -- pairs remain: recurse on the decremented state
          have hseq1 : (updateLedBlink s t).ledInSequence = true := by
            rw [hstep]; simp; omega
          obtain ⟨b1, b2, b3⟩ := ih (updateLedBlink s t) hseq1
            (by rw [hpin1, hoff1]) (by rw [hcnt1]; omega)
          refine ⟨?_, fun hid => ?_, fun hrun => ?_⟩
          · rw [hcnt1] at b1; omega
          · obtain ⟨e1, e2, e3⟩ := b2 hid
            rw [hcnt1] at e1
            exact ⟨by omega, e2, e3⟩
          · obtain ⟨e1, e2, e3⟩ := b3 hrun
            rw [hcnt1] at e1
            exact ⟨by omega, e2, e3⟩

/-- Tick times spaced exactly `LED_INTERVAL_MS` apart, starting just
after `start`. -/
def paceList (start : ℕ) : ℕ → List ℕ
  | 0 => []
  | n + 1 => (start + LED_INTERVAL_MS) :: paceList (start + LED_INTERVAL_MS) n

/-- An armed sequence with `c` pairs remaining reaches idle on the
`LED_INTERVAL_MS`-paced trace of `2 * c` ticks. -/
lemma runLed_paced : ∀ (c : ℕ) (s : State),
    s.ledInSequence = true → s.ledOnPhase = false →
    s.ledBlinkCount = c → 1 ≤ c →
    (runLed s (paceList s.ledLastMillis (2 * c))).ledInSequence = false := by
  intro c
  induction c with
  | zero => intro s _ _ _ h; omega
  | succ c ih =>
    intro s hseq hph hcnt hpos
    have h2 : 2 * (c + 1) = (2 * c) + 1 + 1 := by ring
    rw [h2]
    simp only [paceList, runLed]
    have hstep1 := updateLedBlink_turn_on s (s.ledLastMillis + LED_INTERVAL_MS)
      hseq (by omega) hph
    rw [hstep1]
    set s1 : State := { s with
      ledLastMillis := s.ledLastMillis + LED_INTERVAL_MS,
      ledPinHigh := true, ledOnPhase := true } with hs1
    have hstep2 := updateLedBlink_turn_off s1
      (s.ledLastMillis + LED_INTERVAL_MS + LED_INTERVAL_MS)
      (by rw [hs1]; exact hseq)
      (by rw [hs1]; show ¬ (_ - (s.ledLastMillis + LED_INTERVAL_MS) < _); omega)
      (by rw [hs1]) (by rw [hs1]; show 1 ≤ s.ledBlinkCount; omega)
    rw [hstep2]
    set s2 : State := { s1 with
      ledLastMillis := s.ledLastMillis + LED_INTERVAL_MS + LED_INTERVAL_MS,
      ledPinHigh := false, ledOnPhase := false,
      ledBlinkCount := s1.ledBlinkCount - 1,
      ledInSequence := decide (s1.ledBlinkCount - 1 ≠ 0) } with hs2
    have hcnt2 : s2.ledBlinkCount = c := by rw [hs2, hs1]; simp [hcnt]
    by_cases hc : c = 0
    · have hid : s2.ledInSequence = false := by
        rw [hs2, hs1]
        simp [hcnt, hc]
      rw [runLed_idle _ _ hid]
      exact hid
    · have hlast2 : s2.ledLastMillis
          = s.ledLastMillis + LED_INTERVAL_MS + LED_INTERVAL_MS := by
        rw [hs2]
      have := ih s2
        (by rw [hs2, hs1]; simp [hcnt]; omega)
        (by rw [hs2]) hcnt2 (by omega)
      rw [hlast2] at this
      exact this

lemma startScaleBlink_armed (s : State) (k : ℤ) (now : ℕ)
    (h0 : 0 ≤ k) (h7 : k < 7) :
    (startScaleBlink s k now).ledInSequence = true ∧
    (startScaleBlink s k now).ledBlinkCount = k.toNat + 1 ∧
    (startScaleBlink s k now).ledOnPhase = false ∧
    (startScaleBlink s k now).ledPinHigh = false ∧
    (startScaleBlink s k now).ledLastMillis = now := by
  have hc : (k + 1).toNat % 256 = k.toNat + 1 := by omega
  simp only [startScaleBlink, hc]
  rw [if_neg (by omega)]
  exact ⟨rfl, rfl, rfl, rfl, rfl⟩

/-- C5: arming the indicator for scale index `k` (`0 ≤ k < NUM_SCALES`)
yields at most `k + 1` completed on/off blink pairs on any tick trace;
when the machine has returned to idle exactly `k + 1` pairs were
produced and the lamp is off; and the `LED_INTERVAL_MS`-paced trace of
`2 * (k + 1)` ticks does drive it back to idle — the count depends on
elapsed time, not on how many ticks occur. -/
theorem C5_blink_count_exact (s0 : State) (k : ℤ) (now0 : ℕ)
    (ts : List ℕ) (h0 : 0 ≤ k) (h7 : k < NUM_SCALES) :
    pairsDone (startScaleBlink s0 k now0) ts ≤ k.toNat + 1 ∧
    ((runLed (startScaleBlink s0 k now0) ts).ledInSequence = false →
      pairsDone (startScaleBlink s0 k now0) ts = k.toNat + 1 ∧
      (runLed (startScaleBlink s0 k now0) ts).ledPinHigh = false) ∧
    (runLed (startScaleBlink s0 k now0)
      (paceList now0 (2 * (k.toNat + 1)))).ledInSequence = false := by
  have h7' : k < 7 := by
    have : NUM_SCALES = 7 := rfl
    omega
  obtain ⟨ha1, ha2, ha3, ha4, ha5⟩ := startScaleBlink_armed s0 k now0 h0 h7'
  obtain ⟨b1, b2, b3⟩ := runLed_pairs ts (startScaleBlink s0 k now0) ha1
    (by rw [ha4, ha3]) (by rw [ha2]; omega)
  refine ⟨by rw [ha2] at b1; exact b1, fun hid => ?_, ?_⟩
  · obtain ⟨e1, e2, -⟩ := b2 hid
    rw [ha2] at e1
    exact ⟨e1, e2⟩
  · have := runLed_paced (k.toNat + 1) (startScaleBlink s0 k now0)
      ha1 ha3 ha2 (by omega)
    rw [ha5] at this
    exact this

/-- Witness for C5: power-on state, scale index 2, armed at `t = 1000`,
probed on the short trace `[1120, 1240]` and on the paced trace. -/
theorem C5_witness :
    pairsDone (startScaleBlink initState 2 1000) [1120, 1240] ≤ 3 ∧
    ((runLed (startScaleBlink initState 2 1000)
        [1120, 1240]).ledInSequence = false →
      pairsDone (startScaleBlink initState 2 1000) [1120, 1240] = 3 ∧
      (runLed (startScaleBlink initState 2 1000)
        [1120, 1240]).ledPinHigh = false) ∧
    (runLed (startScaleBlink initState 2 1000)
      (paceList 1000 (2 * 3))).ledInSequence = false :=
  C5_blink_count_exact initState 2 1000 [1120, 1240]
    (by decide) (by decide)

/-! ### Channel range invariant -/

/-- All four channel-state values lie in `[0, 60]`. -/
def chInv (s : State) : Prop :=
  0 ≤ s.ch1.currentSemi ∧ s.ch1.currentSemi ≤ 60 ∧
  0 ≤ s.ch1.targetSemi ∧ s.ch1.targetSemi ≤ 60 ∧
  0 ≤ s.ch2.currentSemi ∧ s.ch2.currentSemi ≤ 60 ∧
  0 ≤ s.ch2.targetSemi ∧ s.ch2.targetSemi ≤ 60

lemma chInv_of_eq {s t : State} (h1 : t.ch1 = s.ch1) (h2 : t.ch2 = s.ch2)
    (h : chInv s) : chInv t := by
  unfold chInv at h ⊢
  rw [h1, h2]
  exact h

/-- The glide output stays inside `[0, 60]` whenever both endpoints
do: it is a convex combination of `current` and `target`. -/
lemma applyPortamento_mem (rc : ℤ) {c t : ℚ}
    (hc0 : 0 ≤ c) (hc60 : c ≤ 60) (ht0 : 0 ≤ t) (ht60 : t ≤ 60) :
    0 ≤ applyPortamento c t rc ∧ applyPortamento c t rc ≤ 60 := by
  unfold applyPortamento
  split_ifs with h
  · exact ⟨ht0, ht60⟩
  · have hk : 1 ≤ portSteps rc := portSteps_pos (by omega)
    have hk1 : (1 : ℚ) ≤ (portSteps rc : ℚ) := by exact_mod_cast hk
    have hkpos : (0 : ℚ) < (portSteps rc : ℚ) := by linarith
    have heq : c + (t - c) / (portSteps rc : ℚ)
        = (((portSteps rc : ℚ) - 1) * c + t) / (portSteps rc : ℚ) := by
      field_simp
      ring
    rw [heq]
    constructor
    · apply div_nonneg _ (le_of_lt hkpos)
      nlinarith
    · rw [div_le_iff₀ hkpos]
      nlinarith

/-- Casting the clamped transposed target to `ℚ` keeps it in
`[0, 60]`. -/
lemma clampQ_bounds (x : ℤ) :
    (0 : ℚ) ≤ (clampInt 0 MAX_SEMITONES_INT x : ℚ) ∧
    (clampInt 0 MAX_SEMITONES_INT x : ℚ) ≤ 60 := by
  obtain ⟨a, b⟩ := clampInt_bounds 0 MAX_SEMITONES_INT x
    (by norm_num [MAX_SEMITONES_INT])
  have b' : clampInt 0 MAX_SEMITONES_INT x ≤ 60 := b
  exact ⟨by exact_mod_cast a, by exact_mod_cast b'⟩

lemma updateButton_chInv (s : State) (r : Bool) (now : ℕ)
    (h : chInv s) : chInv (updateButton s r now) := by
  obtain ⟨h1, h2, h3, h4, h5, h6, h7, h8⟩ := h
  simp only [updateButton]
  split_ifs <;>
    first
      | exact ⟨h3, h4, h3, h4, h7, h8, h7, h8⟩
      | exact ⟨h1, h2, h3, h4, h5, h6, h7, h8⟩

lemma channelStep_chInv (s : State) (inp : Input) (h : chInv s) :
    chInv (channelStep s inp) := by
  obtain ⟨h1, h2, h3, h4, h5, h6, h7, h8⟩ := h
  unfold channelStep
  split_ifs with hb
  · exact ⟨h1, h2, h3, h4, h5, h6, h7, h8⟩
  · exact ⟨(applyPortamento_mem _ h1 h2 (clampQ_bounds _).1
        (clampQ_bounds _).2).1,
      (applyPortamento_mem _ h1 h2 (clampQ_bounds _).1
        (clampQ_bounds _).2).2,
      (clampQ_bounds _).1, (clampQ_bounds _).2,
      (applyPortamento_mem _ h5 h6 (clampQ_bounds _).1
        (clampQ_bounds _).2).1,
      (applyPortamento_mem _ h5 h6 (clampQ_bounds _).1
        (clampQ_bounds _).2).2,
      (clampQ_bounds _).1, (clampQ_bounds _).2⟩

lemma loopTick_chInv (s : State) (inp : Input) (h : chInv s) :
    chInv (loopTick s inp) := by
  unfold loopTick
  have hs1 := scaleStep_preserves s inp
  have h1 : chInv (scaleStep s inp) := chInv_of_eq hs1.1 hs1.2.1 h
  have h2 := updateButton_chInv (scaleStep s inp) inp.buttonReading inp.now h1
  have h3 := channelStep_chInv _ inp h2
  have hled := updateLedBlink_preserves
    (channelStep (updateButton (scaleStep s inp) inp.buttonReading inp.now)
      inp) inp.now
  exact chInv_of_eq hled.1 hled.2.1 h3

lemma chInv_init : chInv initState := by
  unfold chInv initState startScaleBlink
  norm_num

lemma runLoop_chInv (inps : List Input) (s : State) (h : chInv s) :
    chInv (runLoop s inps) := by
  induction inps generalizing s with
  | nil => exact h
  | cons i rest ih => exact ih (loopTick s i) (loopTick_chInv s i h)

/-- Raw analog inputs in their declared ADC range `[0, 1023]`. -/
def inputInRange (i : Input) : Prop :=
  0 ≤ i.scalePot ∧ i.scalePot ≤ 1023 ∧
  0 ≤ i.portamentoRaw ∧ i.portamentoRaw ≤ 1023 ∧
  0 ≤ i.transposeRaw ∧ i.transposeRaw ≤ 1023 ∧
  0 ≤ i.cv1Adc ∧ i.cv1Adc ≤ 1023 ∧
  0 ≤ i.cv2Adc ∧ i.cv2Adc ≤ 1023

instance (i : Input) : Decidable (inputInRange i) := by
  unfold inputInRange
  infer_instance

/-- C7: starting from both channels at `currentSemi = targetSemi = 0`,
after every loop tick over any input sequence in the declared ranges,
both channels' `currentSemi` and `targetSemi` lie in `[0, 60]`:
targets are only ever written as clamped quantized-plus-transpose
integers, and currents only by the glide (which stays between current
and target) or the bypass resync. -/
theorem C7_channel_range_invariant (inps : List Input)
    (_hr : ∀ i ∈ inps, inputInRange i) :
    chInv (runLoop initState inps) :=
  runLoop_chInv inps initState chInv_init

/-- Witness for C7 on a one-tick trace with mid-scale inputs. -/
theorem C7_witness :
    chInv (runLoop initState
      [{ scalePot := 0, portamentoRaw := 0, transposeRaw := 0,
         buttonReading := true, cv1Adc := 512, cv2Adc := 512, now := 5 }]) :=
  C7_channel_range_invariant
    [{ scalePot := 0, portamentoRaw := 0, transposeRaw := 0,
       buttonReading := true, cv1Adc := 512, cv2Adc := 512, now := 5 }]
    (by decide)

end Quantizer
